import Mathlib

/-!
Verification of the Sourceror repository: a deterministic decision engine that
filters, scores and ranks marketplace listings against a buyer's preference
specification, plus the Next.js frontend that submits requests and renders the
results.  The frontend (InputForm, Home page, the API client in lib/api.ts and
the type declarations in types/index.ts) is embedded directly from the
TypeScript sources.  The backend engine (filter, scorer, recommender,
sensitivity analyzer and the FastAPI request boundary) is not among the
sources; those definitions are modelled from the specification and are marked
as such in their doc comments.  Numeric values are modelled as rationals.
-/

namespace Sourceror

/-- Condition tag of a listing, from `types/index.ts`:
`type Condition = "new" | "refurb" | "used"`. -/
inductive Condition where
  | new
  | refurb
  | used
deriving DecidableEq, Repr

/-- Three-level tier, used for both `DeliveryPriority` and `RiskTolerance`
(`"low" | "medium" | "high"` in `types/index.ts`). -/
inductive Tier where
  | low
  | medium
  | high
deriving DecidableEq, Repr

/-- Weight vector over the five scoring dimensions, from `WeightConfig` in
`types/index.ts`. -/
structure WeightConfig where
  price : ℚ
  delivery : ℚ
  reliability : ℚ
  warranty : ℚ
  spec_match : ℚ
deriving DecidableEq, Repr

/-- Per-dimension score vector, from `ComponentScores` in `types/index.ts`
(same shape as the weight vector). -/
structure ComponentScores where
  price : ℚ
  delivery : ℚ
  reliability : ℚ
  warranty : ℚ
  spec_match : ℚ
deriving DecidableEq, Repr

/-- A normalized marketplace listing, from `NormalizedListing` in
`types/index.ts`.  The open attribute map `specs` is modelled as a list of
key/value string pairs; the unmodified `raw` payload is irrelevant to every
claim and carried as an opaque string list. -/
structure NormalizedListing where
  id : String
  source : String
  title : String
  url : String
  image_url : Option String
  price : ℚ
  shipping_cost : Option ℚ
  total_cost : ℚ
  condition : Option Condition
  eta_min_days : Option ℚ
  eta_max_days : Option ℚ
  return_window_days : Option ℚ
  seller_rating : Option ℚ
  seller_feedback_count : Option ℕ
  warranty_months : Option ℚ
  specs : List (String × String)
deriving DecidableEq, Repr

/-- The buyer's request, from `RecommendationRequest` in `types/index.ts`. -/
structure RecommendationRequest where
  category : String
  query : String
  budget_max : ℚ
  condition_allowed : List Condition
  delivery_priority : Tier
  risk_tolerance : Tier
  weights : WeightConfig
  user_location_zip : Option String
deriving DecidableEq, Repr

/-- The echoed decision spec, from `DecisionSpec` in `types/index.ts` (field
for field identical to `RecommendationRequest`). -/
structure DecisionSpec where
  category : String
  query : String
  budget_max : ℚ
  condition_allowed : List Condition
  delivery_priority : Tier
  risk_tolerance : Tier
  weights : WeightConfig
  user_location_zip : Option String
deriving DecidableEq, Repr

/-- A scored candidate, from `ScoredListing` in `types/index.ts`. -/
structure ScoredListing where
  listing : NormalizedListing
  scores : ComponentScores
  total_score : ℚ
deriving DecidableEq, Repr

/-- Label of a top-3 recommendation, from `RecommendationLabel` in
`types/index.ts`. -/
inductive RecommendationLabel where
  | overall
  | value
  | low_risk
deriving DecidableEq, Repr

/-- A labeled recommendation, from `Recommendation` in `types/index.ts`. -/
structure Recommendation where
  label : RecommendationLabel
  listing : NormalizedListing
  scores : ComponentScores
  total_score : ℚ
  why : List String
  tradeoff : String
deriving DecidableEq, Repr

/-- Stability verdict, from `Stability` in `types/index.ts`. -/
inductive Stability where
  | high
  | medium
  | low
deriving DecidableEq, Repr

/-- A weight-sweep switch entry, from `WeightSwitchCondition` in
`types/index.ts`. -/
structure WeightSwitchCondition where
  type : String
  dimension : String
  factor : ℚ
  new_winner_id : String
  message : String
deriving DecidableEq, Repr

/-- A budget-relaxation entry, from `BudgetRelaxation` in `types/index.ts`. -/
structure BudgetRelaxation where
  budget : ℚ
  new_winner_id : Option String
  message : String
deriving DecidableEq, Repr

/-- Sensitivity analysis result, from `SensitivityResult` in `types/index.ts`. -/
structure SensitivityResult where
  stability : Stability
  switch_conditions : List WeightSwitchCondition
  budget_relaxation : List BudgetRelaxation
deriving DecidableEq, Repr

/-- Debug block of the response, from `DebugInfo` in `types/index.ts`: exactly
the four fields `candidates_considered`, `candidates_after_filter`,
`sources_used` and `errors`. -/
structure DebugInfo where
  candidates_considered : ℕ
  candidates_after_filter : ℕ
  sources_used : List String
  errors : List String
deriving DecidableEq, Repr

/-- The response record, from `RecommendationResponse` in `types/index.ts`:
exactly the echoed spec, top3, ranked shortlist, sensitivity result and debug
block. -/
structure RecommendationResponse where
  decision_spec : DecisionSpec
  top3 : List Recommendation
  ranked_shortlist : List ScoredListing
  sensitivity : SensitivityResult
  debug : DebugInfo
deriving DecidableEq, Repr

/-! ### Frontend: InputForm.handleSubmit (src/frontend/src/components/InputForm.tsx) -/

/-- The three condition checkboxes of the form, from the `conditions` state of
`InputForm` (`useState({ new: true, refurb: true, used: false })`). -/
structure ConditionsState where
  new : Bool
  refurb : Bool
  used : Bool
deriving DecidableEq, Repr

/-- The `conditionAllowed` list built inside `handleSubmit`: push `"new"`,
then `"refurb"`, then `"used"`, each guarded only by its checkbox. -/
def buildConditionAllowed (c : ConditionsState) : List Condition :=
  (if c.new then [Condition.new] else []) ++
    (if c.refurb then [Condition.refurb] else []) ++
      (if c.used then [Condition.used] else [])

/-- The request object passed to `onSubmit` by `handleSubmit` in
`InputForm.tsx` (lines 47-62).  The handler performs no validation of any
kind: it assembles the fields from the form state and submits. -/
def handleSubmitRequest (query : String) (budgetMax : ℚ) (conds : ConditionsState)
    (deliveryPriority riskTolerance : Tier) (weights : WeightConfig) :
    RecommendationRequest :=
  { category := "headphones"
    query := query
    budget_max := budgetMax
    condition_allowed := buildConditionAllowed conds
    delivery_priority := deliveryPriority
    risk_tolerance := riskTolerance
    weights := weights
    user_location_zip := none }

/-- Default weights of the form, from `DEFAULT_WEIGHTS` in `InputForm.tsx`. -/
def DEFAULT_WEIGHTS : WeightConfig :=
  { price := 1/4, delivery := 1/5, reliability := 1/4, warranty := 3/20, spec_match := 3/20 }

/-! ### Engine: filter (modelled from the spec) -/

/-- Modelled from the spec: the Filter of `backend/app/services` (the backend
sources are not in the repository snapshot).  A listing survives iff
`total_cost <= spec.budget_max` and its condition is in
`spec.condition_allowed`; a listing with a missing condition fails the
condition check. -/
def listingPasses (spec : DecisionSpec) (l : NormalizedListing) : Bool :=
  decide (l.total_cost ≤ spec.budget_max) &&
    (match l.condition with
     | some c => spec.condition_allowed.contains c
     | none => false)

/-- Modelled from the spec: `filter(listings, spec) -> candidates`, a
deterministic order-preserving pass keeping exactly the listings that satisfy
both hard constraints. -/
def filterListings (spec : DecisionSpec) (listings : List NormalizedListing) :
    List NormalizedListing :=
  listings.filter (listingPasses spec)

/-! ### Engine: scorer (modelled from the spec) -/

/-- Minimum of a list of rationals; 0 on the empty list (the scorer only
queries pool statistics for a candidate drawn from the pool, so the pool is
never empty at a use site). -/
def poolMin : List ℚ → ℚ
  | [] => 0
  | x :: xs => xs.foldr min x

/-- Maximum of a list of rationals; 0 on the empty list. -/
def poolMax : List ℚ → ℚ
  | [] => 0
  | x :: xs => xs.foldr max x

/-- Modelled from the spec: the linear inverse-normalization shared by the
price and delivery dimensions.  The least value of the pool scores 1, the
greatest scores 0, and a degenerate pool (all values equal) scores the
neutral midpoint 1/2 instead of dividing by zero. -/
def inverseNormalize (pool : List ℚ) (x : ℚ) : ℚ :=
  if poolMax pool = poolMin pool then 1/2
  else (poolMax pool - x) / (poolMax pool - poolMin pool)

/-- Modelled from the spec: price dimension, inverse-normalized total cost
against the candidate pool. -/
def priceScore (pool : List NormalizedListing) (l : NormalizedListing) : ℚ :=
  inverseNormalize (pool.map NormalizedListing.total_cost) l.total_cost

/-- Modelled from the spec: effective maximum-ETA of a listing; a missing ETA
defaults to the greatest known ETA of the pool (penalized as slowest). -/
def effectiveEta (pool : List NormalizedListing) (l : NormalizedListing) : ℚ :=
  l.eta_max_days.getD (poolMax (pool.filterMap NormalizedListing.eta_max_days))

/-- Modelled from the spec: delivery dimension, inverse-normalized effective
ETA against the pool's effective ETAs. -/
def deliveryScore (pool : List NormalizedListing) (l : NormalizedListing) : ℚ :=
  inverseNormalize (pool.map (effectiveEta pool)) (effectiveEta pool l)

/-- Clamp a rational to the closed unit interval. -/
def clamp01 (x : ℚ) : ℚ := max 0 (min 1 x)

/-- Modelled from the spec: the feedback-count confidence factor of the
reliability dimension.  The exact discount curve is a product-tuning constant
not fixed by the spec; the model uses `min 1 (count / 50)`, which is 0 with
no feedback and reaches full confidence at 50 data points, matching the
described shape (sparse ratings are pulled toward the midpoint). -/
def reliabilityConfidence (count : Option ℕ) : ℚ :=
  min 1 ((count.getD 0 : ℚ) / 50)

/-- Modelled from the spec: reliability dimension, the normalized seller
rating (percentage divided by 100) discounted toward the neutral midpoint 1/2
by the confidence factor; a missing rating scores the midpoint 1/2. -/
def reliabilityScore (l : NormalizedListing) : ℚ :=
  match l.seller_rating with
  | none => 1/2
  | some r => 1/2 + reliabilityConfidence l.seller_feedback_count * (r / 100 - 1/2)

/-- Modelled from the spec: the warranty ceiling, 24 months. -/
def WARRANTY_CEILING : ℚ := 24

/-- Modelled from the spec: warranty dimension, months divided by the fixed
24-month ceiling and clamped to the unit interval; a missing warranty scores
a low-but-nonzero default (3/10 in this model; the exact constant is a
product-tuning value). -/
def warrantyScore (l : NormalizedListing) : ℚ :=
  match l.warranty_months with
  | none => 3/10
  | some m => clamp01 (m / WARRANTY_CEILING)

/-- Lower-cased whole tokens of a string, split on spaces, empty tokens
dropped. -/
def tokenize (s : String) : List String :=
  (s.toLower.splitOn " ").filter (fun t => t ≠ "")

/-- Tokens of a listing's title plus its attribute map (keys and values). -/
def listingTokens (l : NormalizedListing) : List String :=
  tokenize l.title ++ l.specs.flatMap (fun kv => tokenize kv.1 ++ tokenize kv.2)

/-- Modelled from the spec: spec_match dimension, the fraction of the query's
tokens found (case-insensitive, whole-token) in the listing's title or
attribute map; absolute, not pool-relative.  An empty query scores 0. -/
def specMatchScore (query : String) (l : NormalizedListing) : ℚ :=
  if (tokenize query).length = 0 then 0
  else (((tokenize query).filter (fun t => (listingTokens l).contains t)).length : ℚ) /
    ((tokenize query).length : ℚ)

/-- Modelled from the spec: the five component scores of one listing relative
to one candidate pool and one spec. -/
def componentScores (spec : DecisionSpec) (pool : List NormalizedListing)
    (l : NormalizedListing) : ComponentScores :=
  { price := priceScore pool l
    delivery := deliveryScore pool l
    reliability := reliabilityScore l
    warranty := warrantyScore l
    spec_match := specMatchScore spec.query l }

/-- Sum of the five weights. -/
def weightSum (w : WeightConfig) : ℚ :=
  w.price + w.delivery + w.reliability + w.warranty + w.spec_match

/-- Modelled from the spec: normalization of the weight vector to sum to 1
(the engine's precondition is a non-all-zero, non-negative vector). -/
def normalizeWeights (w : WeightConfig) : WeightConfig :=
  { price := w.price / weightSum w
    delivery := w.delivery / weightSum w
    reliability := w.reliability / weightSum w
    warranty := w.warranty / weightSum w
    spec_match := w.spec_match / weightSum w }

/-- Weighted sum of the component scores under a weight vector. -/
def weightedTotal (w : WeightConfig) (s : ComponentScores) : ℚ :=
  w.price * s.price + w.delivery * s.delivery + w.reliability * s.reliability +
    w.warranty * s.warranty + w.spec_match * s.spec_match

/-- Modelled from the spec: `score(candidates, spec)` under an explicit weight
vector (the sensitivity analyzer re-scores with perturbed weights).  Each
candidate is paired with its pool-relative component scores and the weighted
total under the normalized weights. -/
def scoreCandidatesWith (w : WeightConfig) (spec : DecisionSpec)
    (pool : List NormalizedListing) : List ScoredListing :=
  pool.map (fun l =>
    { listing := l, scores := componentScores spec pool l
      total_score := weightedTotal (normalizeWeights w) (componentScores spec pool l) })

/-- Modelled from the spec: `score(candidates, spec)` with the buyer's own
weights. -/
def scoreCandidates (spec : DecisionSpec) (pool : List NormalizedListing) :
    List ScoredListing :=
  scoreCandidatesWith spec.weights spec pool

/-! ### Engine: recommender (modelled from the spec) -/

/-- Modelled from the spec: the deterministic total order of the ranked
shortlist, descending by total score with ties broken by ascending listing
id. -/
def rankLE (a b : ScoredListing) : Prop :=
  b.total_score < a.total_score ∨
    (a.total_score = b.total_score ∧ a.listing.id ≤ b.listing.id)

instance : DecidableRel rankLE := fun a b => by
  unfold rankLE; infer_instance

instance : IsTotal ScoredListing rankLE where
  total a b := by
    unfold rankLE
    rcases lt_trichotomy a.total_score b.total_score with h | h | h
    · exact Or.inr (Or.inl h)
    · rcases le_total a.listing.id b.listing.id with h' | h'
      · exact Or.inl (Or.inr ⟨h, h'⟩)
      · exact Or.inr (Or.inr ⟨h.symm, h'⟩)
    · exact Or.inl (Or.inl h)

instance : IsTrans ScoredListing rankLE where
  trans a b c hab hbc := by
    unfold rankLE at *
    rcases hab with hab | ⟨hab, hab'⟩
    · rcases hbc with hbc | ⟨hbc, _⟩
      · exact Or.inl (hbc.trans hab)
      · exact Or.inl (hbc ▸ hab)
    · rcases hbc with hbc | ⟨hbc, hbc'⟩
      · exact Or.inl (hab ▸ hbc)
      · exact Or.inr ⟨hab.trans hbc, hab'.trans hbc'⟩

/-- Modelled from the spec: the full ranked shortlist, the scored candidates
sorted under `rankLE` (a stable sort, hence deterministic). -/
def rankedShortlist (scored : List ScoredListing) : List ScoredListing :=
  List.insertionSort rankLE scored

/-- Name/value pairs of the five dimensions of a score vector, used for the
explanatory text. -/
def dimensionEntries (s : ComponentScores) : List (String × ℚ) :=
  [("price", s.price), ("delivery", s.delivery), ("reliability", s.reliability),
    ("warranty", s.warranty), ("spec_match", s.spec_match)]

/-- Modelled from the spec: the (up to three) dimensions where the listing
scores highest among its own component scores, rendered as short
justification strings. -/
def topReasons (s : ComponentScores) : List String :=
  ((List.insertionSort (fun a b : String × ℚ => b.2 ≤ a.2) (dimensionEntries s)).take 3).map
    (fun e => "strong " ++ e.1)

/-- Modelled from the spec: the single weakest dimension of the listing,
rendered as the tradeoff sentence. -/
def weakestDimension (s : ComponentScores) : String :=
  match List.insertionSort (fun a b : String × ℚ => a.2 ≤ b.2) (dimensionEntries s) with
  | [] => ""
  | e :: _ => "weakest " ++ e.1

/-- Modelled from the spec: the boost applied to the dominant dimension(s) of
the `value` and `low_risk` weight contexts (a product-tuning constant). -/
def LABEL_BOOST : ℚ := 3

/-- Modelled from the spec: the price-dominant weight context of the `value`
label (price weight boosted, the vector renormalized before use by the
scorer). -/
def valueWeights (w : WeightConfig) : WeightConfig :=
  { w with price := w.price * LABEL_BOOST }

/-- Modelled from the spec: the reliability+warranty-dominant weight context
of the `low_risk` label. -/
def lowRiskWeights (w : WeightConfig) : WeightConfig :=
  { w with reliability := w.reliability * LABEL_BOOST, warranty := w.warranty * LABEL_BOOST }

/-- Modelled from the spec: each label's weight context, a fixed enumeration
mapped to weight transformations. -/
def labelContexts (w : WeightConfig) : List (RecommendationLabel × WeightConfig) :=
  [(RecommendationLabel.overall, w), (RecommendationLabel.value, valueWeights w),
    (RecommendationLabel.low_risk, lowRiskWeights w)]

/-- Modelled from the spec: pick a context's top-ranked listing, skipping the
listings already claimed by earlier labels; yields nothing when every
candidate is claimed or the pool is empty (no duplication, no padding). -/
def pickTop (ranked : List ScoredListing) (used : List String) : Option ScoredListing :=
  (ranked.filter (fun s => !(used.contains s.listing.id))).head?

/-- Package a scored listing as a labeled recommendation with its explanatory
text. -/
def mkRecommendation (label : RecommendationLabel) (s : ScoredListing) : Recommendation :=
  { label := label, listing := s.listing, scores := s.scores,
    total_score := s.total_score, why := topReasons s.scores,
    tradeoff := weakestDimension s.scores }

/-- Modelled from the spec: the three labeled picks, produced by re-scoring
the same filtered pool under each label's weight context and taking each
context's top-ranked unclaimed listing. -/
def recommendTop3 (spec : DecisionSpec) (pool : List NormalizedListing) :
    List Recommendation :=
  (labelContexts spec.weights).foldl
    (fun acc lc =>
      match pickTop (rankedShortlist (scoreCandidatesWith lc.2 spec pool))
          (acc.map (fun r => r.listing.id)) with
      | none => acc
      | some s => acc ++ [mkRecommendation lc.1 s])
    []

/-! ### Engine: sensitivity analyzer (modelled from the spec) -/

/-- The five scoring dimensions, as perturbed by the weight sweep. -/
inductive Dimension where
  | price
  | delivery
  | reliability
  | warranty
  | spec_match
deriving DecidableEq, Repr

/-- Name of a dimension, as recorded in a switch-condition entry. -/
def dimensionName : Dimension → String
  | .price => "price"
  | .delivery => "delivery"
  | .reliability => "reliability"
  | .warranty => "warranty"
  | .spec_match => "spec_match"

/-- The fixed iteration order of the weight sweep over the five dimensions. -/
def allDimensions : List Dimension :=
  [.price, .delivery, .reliability, .warranty, .spec_match]

/-- Modelled from the spec: the milder multiplicative perturbation factors of
the weight sweep (product-tuning constants; the spec fixes only the
mechanism). -/
def SMALL_FACTORS : List ℚ := [4/5, 6/5]

/-- Modelled from the spec: the larger multiplicative perturbation factors of
the weight sweep. -/
def LARGE_FACTORS : List ℚ := [1/2, 2]

/-- All tested perturbation factors, smallest tier first. -/
def SWEEP_FACTORS : List ℚ := SMALL_FACTORS ++ LARGE_FACTORS

/-- Modelled from the spec: the fixed budget increments of the budget
relaxation (+50 and +100 in the buyer's currency unit). -/
def BUDGET_INCREMENTS : List ℚ := [50, 100]

/-- Scale one dimension's weight by a factor, leaving the others unchanged
(the scorer renormalizes the vector before use). -/
def scaleWeight (d : Dimension) (f : ℚ) (w : WeightConfig) : WeightConfig :=
  match d with
  | .price => { w with price := w.price * f }
  | .delivery => { w with delivery := w.delivery * f }
  | .reliability => { w with reliability := w.reliability * f }
  | .warranty => { w with warranty := w.warranty * f }
  | .spec_match => { w with spec_match := w.spec_match * f }

/-- Modelled from the spec: the id of the `overall` winner of one
filter+score+rank pass under an explicit weight vector; nothing when the
filtered pool is empty. -/
def overallWinner (spec : DecisionSpec) (w : WeightConfig)
    (listings : List NormalizedListing) : Option String :=
  (rankedShortlist (scoreCandidatesWith w spec (filterListings spec listings))).head?.map
    (fun s => s.listing.id)

/-- The unperturbed winner. -/
def baseWinner (spec : DecisionSpec) (listings : List NormalizedListing) : Option String :=
  overallWinner spec spec.weights listings

/-- The winner after perturbing one dimension's weight by one factor. -/
def sweepWinner (spec : DecisionSpec) (listings : List NormalizedListing)
    (d : Dimension) (f : ℚ) : Option String :=
  overallWinner spec (scaleWeight d f spec.weights) listings

/-- The spec with its budget ceiling relaxed by an increment, weights
unchanged. -/
def relaxBudget (spec : DecisionSpec) (inc : ℚ) : DecisionSpec :=
  { spec with budget_max := spec.budget_max + inc }

/-- The winner after re-running the filter with a relaxed budget. -/
def relaxWinner (spec : DecisionSpec) (listings : List NormalizedListing)
    (inc : ℚ) : Option String :=
  overallWinner (relaxBudget spec inc) spec.weights listings

/-- Modelled from the spec: the switch-condition entry of one (dimension,
factor) perturbation; an entry is recorded exactly when the perturbed winner
differs from the unperturbed winner. -/
def switchEntry (spec : DecisionSpec) (listings : List NormalizedListing)
    (d : Dimension) (f : ℚ) : Option WeightSwitchCondition :=
  match sweepWinner spec listings d f with
  | none => none
  | some wid =>
      if baseWinner spec listings = some wid then none
      else some
        { type := "weight_sweep", dimension := dimensionName d, factor := f,
          new_winner_id := wid,
          message := "changing the " ++ dimensionName d ++ " weight flips the winner" }

/-- Modelled from the spec: the weight sweep, every dimension crossed with
every tested factor, recording an entry per winner change. -/
def switchConditions (spec : DecisionSpec) (listings : List NormalizedListing) :
    List WeightSwitchCondition :=
  allDimensions.flatMap (fun d => SWEEP_FACTORS.filterMap (switchEntry spec listings d))

/-- Modelled from the spec: one budget-relaxation entry per increment, the
new winner's id recorded only when it differs from the unperturbed winner. -/
def budgetRelaxations (spec : DecisionSpec) (listings : List NormalizedListing) :
    List BudgetRelaxation :=
  BUDGET_INCREMENTS.map (fun inc =>
    if relaxWinner spec listings inc = baseWinner spec listings then
      { budget := spec.budget_max + inc, new_winner_id := none,
        message := "the recommendation stays the same" }
    else
      { budget := spec.budget_max + inc, new_winner_id := relaxWinner spec listings inc,
        message := "the recommendation would change" })

/-- Modelled from the spec: the stability verdict, computed from the
collected perturbation results: `high` when nothing changed the winner,
`low` when a smallest-tier weight perturbation changed it, `medium`
otherwise. -/
def stabilityVerdict (spec : DecisionSpec) (listings : List NormalizedListing) : Stability :=
  if (switchConditions spec listings).isEmpty &&
      (budgetRelaxations spec listings).all (fun e => e.new_winner_id.isNone) then .high
  else if (switchConditions spec listings).any
      (fun e => SMALL_FACTORS.contains e.factor) then .low
  else .medium

/-- Modelled from the spec: `analyze(listings, spec) -> SensitivityResult`. -/
def analyze (spec : DecisionSpec) (listings : List NormalizedListing) : SensitivityResult :=
  { stability := stabilityVerdict spec listings
    switch_conditions := switchConditions spec listings
    budget_relaxation := budgetRelaxations spec listings }

/-! ### Engine: pipeline and request boundary (modelled from the spec) -/

/-- The decision spec echoed from a request (field for field; the two types
are declared identically in `types/index.ts`). -/
def specOfRequest (req : RecommendationRequest) : DecisionSpec :=
  { category := req.category, query := req.query, budget_max := req.budget_max,
    condition_allowed := req.condition_allowed,
    delivery_priority := req.delivery_priority,
    risk_tolerance := req.risk_tolerance, weights := req.weights,
    user_location_zip := req.user_location_zip }

/-- Modelled from the spec: the full engine pass over the acquired listings,
producing the self-contained response record: echoed spec, top3, full ranked
shortlist, sensitivity result, and the debug block with the considered/after
counts, the sources used and the acquisition error strings. -/
def runEngine (spec : DecisionSpec) (listings : List NormalizedListing)
    (sources errors : List String) : RecommendationResponse :=
  let candidates := filterListings spec listings
  { decision_spec := spec
    top3 := recommendTop3 spec candidates
    ranked_shortlist := rankedShortlist (scoreCandidates spec candidates)
    sensitivity := analyze spec listings
    debug :=
      { candidates_considered := listings.length
        candidates_after_filter := candidates.length
        sources_used := sources
        errors := errors } }

/-- The all-zero test on a weight vector. -/
def allZeroWeights (w : WeightConfig) : Bool :=
  decide (w.price = 0) && decide (w.delivery = 0) && decide (w.reliability = 0) &&
    decide (w.warranty = 0) && decide (w.spec_match = 0)

/-- Modelled from the spec: the request validation at the caller boundary
(the FastAPI route of `backend/app/main.py`, absent from the sources).  An
all-zero weight vector fails fast with a validation error before the engine
is entered; every other request is processed into a response. -/
def processRequest (req : RecommendationRequest) (listings : List NormalizedListing)
    (sources errors : List String) : Except String RecommendationResponse :=
  if allZeroWeights req.weights then
    Except.error "weights must not all be zero"
  else
    Except.ok (runEngine (specOfRequest req) listings sources errors)

/-! ### Frontend: result rendering of the Home page (src/unnamed/part_001) -/

/-- The mutually exclusive panels the results section of `Home` can show,
following the conditional rendering of `page.tsx`. -/
inductive ResultsPanel where
  | initial
  | loading
  | errorBox (message : String)
  | noResults
  | recommendations (top3Count : ℕ)
deriving DecidableEq, Repr

/-- The results section rendered by `Home` for a given state, from the
conditionals of `page.tsx`: the error box when `error` is set, the
no-matching-products notice when a response is present with `top3.length
=== 0`, the recommendation cards when `top3.length > 0`. -/
def homeResultsPanel (isLoading : Bool) (response : Option RecommendationResponse)
    (error : Option String) : ResultsPanel :=
  if isLoading then .loading
  else
    match error with
    | some msg => .errorBox msg
    | none =>
        match response with
        | none => .initial
        | some r => if r.top3.length = 0 then .noResults else .recommendations r.top3.length

/-- The (response, error) state `Home.handleSubmit` leaves after the API call
settles: the response and a cleared error on success, the thrown message and
no response on failure. -/
def homeStateAfterSubmit (result : Except String RecommendationResponse) :
    Option RecommendationResponse × Option String :=
  match result with
  | Except.ok r => (some r, none)
  | Except.error msg => (none, some msg)

/-! ### Frontend: API client (lib/api.ts, src/unnamed/part_000) -/

/-- The body of a non-ok HTTP response as `response.json()` sees it: either
not valid JSON, or a JSON object whose `detail` field is absent or a
string. -/
inductive ResponseBody where
  | invalid
  | valid (detail : Option String)
deriving DecidableEq, Repr

/-- An HTTP response as observed by the API client: the `ok` flag, the status
code and the body. -/
structure HttpResponse where
  ok : Bool
  status : ℕ
  body : ResponseBody
deriving DecidableEq, Repr

/-- JavaScript truthiness of an optional string (`undefined`, `null` and the
empty string are falsy). -/
def truthyString : Option String → Bool
  | none => false
  | some s => s ≠ ""

/-- The error message thrown by `getRecommendations` for a non-ok response:
`response.json()` falls back to `({ detail: "Unknown error" })` when the body
is not valid JSON, and the thrown message is `error.detail || "HTTP
<status>"` with JavaScript falsiness on the left operand. -/
def recommendationsErrorMessage (r : HttpResponse) : String :=
  let detail : Option String :=
    match r.body with
    | .invalid => some "Unknown error"
    | .valid d => d
  if truthyString detail then detail.getD "" else "HTTP " ++ toString r.status

/-- The `getRecommendations` client of `lib/api.ts` as a function of the
fetched response: a non-ok response throws (an `Except.error` carrying the
thrown message), an ok response resolves with the parsed body. -/
def getRecommendations (r : HttpResponse) (parsed : RecommendationResponse) :
    Except String RecommendationResponse :=
  if r.ok then Except.ok parsed else Except.error (recommendationsErrorMessage r)

/-- The outcome of a `fetch` call: resolved with a response carrying an `ok`
flag, or rejected (network failure). -/
inductive FetchOutcome where
  | resolved (ok : Bool)
  | rejected
deriving DecidableEq, Repr

/-- The `healthCheck` client of `lib/api.ts`: `response.ok` when the fetch
resolves, `false` when it throws (the surrounding try/catch absorbs every
rejection), never itself throwing. -/
def healthCheck : FetchOutcome → Bool
  | .resolved ok => ok
  | .rejected => false

/-! ### Sample data used by witnesses and counterexamples -/

/-- A valid sample spec matching the README's example request. -/
def sampleSpec : DecisionSpec :=
  { category := "headphones", query := "noise cancelling wireless headphones",
    budget_max := 250, condition_allowed := [Condition.new, Condition.refurb],
    delivery_priority := Tier.medium, risk_tolerance := Tier.low,
    weights := DEFAULT_WEIGHTS, user_location_zip := none }

/-- A sample in-budget new-condition listing. -/
def listingA : NormalizedListing :=
  { id := "bb-123", source := "bestbuy", title := "Sony WH-1000XM5 wireless headphones",
    url := "", image_url := none, price := 248, shipping_cost := none, total_cost := 248,
    condition := some Condition.new, eta_min_days := some 2, eta_max_days := some 4,
    return_window_days := some 30, seller_rating := some 98,
    seller_feedback_count := some 1200, warranty_months := some 12, specs := [] }

/-- A sample in-budget refurbished listing with a few missing optional
fields. -/
def listingB : NormalizedListing :=
  { id := "eb-456", source := "ebay", title := "Bose QC45 headphones",
    url := "", image_url := none, price := 180, shipping_cost := some 10, total_cost := 190,
    condition := some Condition.refurb, eta_min_days := some 3, eta_max_days := none,
    return_window_days := some 14, seller_rating := some 95,
    seller_feedback_count := some 40, warranty_months := none, specs := [] }

/-- A sample listing whose total cost exceeds the sample budget. -/
def overBudgetListing : NormalizedListing :=
  { listingA with id := "bb-999", price := 400, total_cost := 400 }

/-- A two-candidate sample pool. -/
def samplePool : List NormalizedListing := [listingA, listingB]

/-- A sample parsed response body, used where `getRecommendations` needs a
parse result for the ok path. -/
def sampleResponse : RecommendationResponse :=
  { decision_spec := sampleSpec, top3 := [], ranked_shortlist := [],
    sensitivity := { stability := Stability.high, switch_conditions := [],
                     budget_relaxation := [] },
    debug := { candidates_considered := 0, candidates_after_filter := 0,
               sources_used := [], errors := [] } }

/-! ### Claims -/

/-- Claim C1: a submitted request whose weight vector is all-zero fails fast
with a validation error at the caller boundary; the engine is never entered
and no recommendations are produced.  The boundary validation is modelled
from the spec (the backend sources are absent); `handleSubmitRequest` is the
frontend's submission from `InputForm.tsx`. -/
theorem allZero_request_fails_fast (req : RecommendationRequest)
    (listings : List NormalizedListing) (sources errors : List String)
    (h : allZeroWeights req.weights = true) :
    processRequest req listings sources errors =
      Except.error "weights must not all be zero" ∧
    ∀ resp, processRequest req listings sources errors ≠ Except.ok resp := by
  unfold processRequest
  rw [h]
  exact ⟨rfl, fun resp hresp => by simp at hresp⟩

/-- Witness for C1: the form can submit an all-zero weight vector (every
slider at 0), and the boundary rejects that concrete request. -/
theorem allZero_request_fails_fast_witness :
    allZeroWeights ((handleSubmitRequest "noise cancelling wireless headphones" 250
        ⟨true, true, false⟩ Tier.medium Tier.low ⟨0, 0, 0, 0, 0⟩).weights) = true ∧
    processRequest (handleSubmitRequest "noise cancelling wireless headphones" 250
        ⟨true, true, false⟩ Tier.medium Tier.low ⟨0, 0, 0, 0, 0⟩) samplePool [] [] =
      Except.error "weights must not all be zero" :=
  ⟨by simp [allZeroWeights, handleSubmitRequest],
    (allZero_request_fails_fast _ samplePool [] []
      (by simp [allZeroWeights, handleSubmitRequest])).1⟩

/-- Claim C2 counterexample: with all three condition checkboxes cleared,
`handleSubmit` builds `condition_allowed = []` and submits it anyway — there
is no construction-time validation — and the processing boundary accepts the
request, so the engine does receive an empty condition set. -/
theorem handleSubmit_empty_conditions_counterexample :
    (handleSubmitRequest "noise cancelling wireless headphones" 250 ⟨false, false, false⟩
        Tier.medium Tier.low DEFAULT_WEIGHTS).condition_allowed = [] ∧
    (processRequest (handleSubmitRequest "noise cancelling wireless headphones" 250
        ⟨false, false, false⟩ Tier.medium Tier.low DEFAULT_WEIGHTS)
        samplePool [] []).isOk = true := by
  constructor
  · rfl
  · have hz : allZeroWeights (handleSubmitRequest "noise cancelling wireless headphones" 250
        ⟨false, false, false⟩ Tier.medium Tier.low DEFAULT_WEIGHTS).weights = false := by
      simp [allZeroWeights, handleSubmitRequest, DEFAULT_WEIGHTS]
    simp only [processRequest, hz]
    rfl

/-- Claim C2 (amended): `handleSubmit` performs no validation; the submitted
`condition_allowed` is exactly the checked subset of new/refurb/used, and it
is non-empty iff at least one checkbox is set. -/
theorem handleSubmit_condition_allowed_nonempty_iff (q : String) (b : ℚ)
    (c : ConditionsState) (dp rt : Tier) (w : WeightConfig) :
    (handleSubmitRequest q b c dp rt w).condition_allowed = buildConditionAllowed c ∧
    ((handleSubmitRequest q b c dp rt w).condition_allowed ≠ [] ↔
      (c.new = true ∨ c.refurb = true ∨ c.used = true)) := by
  obtain ⟨n, r, u⟩ := c
  refine ⟨rfl, ?_⟩
  cases n <;> cases r <;> cases u <;>
    simp [handleSubmitRequest, buildConditionAllowed]

/-- Claim C4: the filter's output is a subsequence of its input, every
surviving listing satisfies the budget bound and has a condition in the
allowed set (a missing condition fails), and filtering is idempotent. -/
theorem filter_subseq_constraints_idempotent (spec : DecisionSpec)
    (listings : List NormalizedListing) :
    (filterListings spec listings).Sublist listings ∧
    (∀ l ∈ filterListings spec listings,
      l.total_cost ≤ spec.budget_max ∧
        ∃ c, l.condition = some c ∧ c ∈ spec.condition_allowed) ∧
    filterListings spec (filterListings spec listings) = filterListings spec listings := by
  refine ⟨List.filter_sublist _, ?_, ?_⟩
  · intro l hl
    have hp : listingPasses spec l = true := List.of_mem_filter hl
    unfold listingPasses at hp
    rw [Bool.and_eq_true] at hp
    refine ⟨of_decide_eq_true hp.1, ?_⟩
    cases hc : l.condition with
    | none => rw [hc] at hp; exact absurd hp.2 (by simp)
    | some c =>
        rw [hc] at hp
        exact ⟨c, rfl, List.elem_iff.mp hp.2⟩
  · exact List.filter_eq_self.mpr fun a ha => List.of_mem_filter ha

/-- Claim C5: the ranked shortlist is a permutation of the scored candidates
that is sorted under `rankLE` (descending total score, ties broken by
ascending listing id), `rankLE` is a total transitive order, and rerunning
the ranking on the same input yields identical output. -/
theorem rankedShortlist_sorted_deterministic (scored : List ScoredListing) :
    (rankedShortlist scored).Perm scored ∧
    List.Sorted rankLE (rankedShortlist scored) ∧
    (∀ a b : ScoredListing, rankLE a b ∨ rankLE b a) ∧
    rankedShortlist scored = rankedShortlist scored :=
  ⟨List.perm_insertionSort rankLE scored, List.sorted_insertionSort rankLE scored,
    fun a b => IsTotal.total a b, rfl⟩

/-- Claim C8: a response record is exactly its five components (echoed spec,
top3, ranked shortlist, sensitivity, debug), the debug block is exactly its
four counters/lists, and the engine populates each component from the
corresponding pipeline stage. -/
theorem response_record_shape (spec : DecisionSpec) (listings : List NormalizedListing)
    (sources errors : List String) :
    (∀ resp : RecommendationResponse,
      resp = ⟨resp.decision_spec, resp.top3, resp.ranked_shortlist, resp.sensitivity,
        resp.debug⟩) ∧
    (∀ d : DebugInfo,
      d = ⟨d.candidates_considered, d.candidates_after_filter, d.sources_used, d.errors⟩) ∧
    (runEngine spec listings sources errors).decision_spec = spec ∧
    (runEngine spec listings sources errors).top3 =
      recommendTop3 spec (filterListings spec listings) ∧
    (runEngine spec listings sources errors).ranked_shortlist =
      rankedShortlist (scoreCandidates spec (filterListings spec listings)) ∧
    (runEngine spec listings sources errors).sensitivity = analyze spec listings ∧
    (runEngine spec listings sources errors).debug =
      ⟨listings.length, (filterListings spec listings).length, sources, errors⟩ :=
  ⟨fun resp => by cases resp; rfl, fun d => by cases d; rfl, rfl, rfl, rfl, rfl, rfl⟩

/-- Claim C9 counterexample: a non-ok response whose body parses as JSON with
a `detail` field that is the empty string does not produce that detail as the
thrown message — JavaScript's `||` treats the empty string as falsy, so the
message falls back to `HTTP 500`. -/
theorem getRecommendations_empty_detail_counterexample :
    getRecommendations ⟨false, 500, ResponseBody.valid (some "")⟩ sampleResponse =
      Except.error "HTTP 500" ∧
    ("HTTP 500" : String) ≠ ("" : String) := by
  exact ⟨rfl, by decide⟩

/-- Claim C9 (amended): for every non-ok response `getRecommendations` throws
and never resolves; the thrown message is the body's `detail` field when the
body parses as JSON with a non-empty-string detail, `HTTP <status>` when the
detail is absent or falsy (the empty string), and `Unknown error` when the
body is not valid JSON. -/
theorem getRecommendations_error_message (r : HttpResponse)
    (parsed : RecommendationResponse) (h : r.ok = false) :
    getRecommendations r parsed = Except.error (recommendationsErrorMessage r) ∧
    (∀ resp, getRecommendations r parsed ≠ Except.ok resp) ∧
    recommendationsErrorMessage r =
      (match r.body with
        | ResponseBody.invalid => "Unknown error"
        | ResponseBody.valid none => "HTTP " ++ toString r.status
        | ResponseBody.valid (some d) =>
            if d = "" then "HTTP " ++ toString r.status else d) := by
  refine ⟨?_, ?_, ?_⟩
  · unfold getRecommendations
    rw [h]
    rfl
  · intro resp hresp
    unfold getRecommendations at hresp
    rw [h] at hresp
    simp at hresp
  · unfold recommendationsErrorMessage
    cases hb : r.body with
    | invalid => simp [truthyString]
    | valid d =>
        cases d with
        | none => simp [truthyString]
        | some s =>
            by_cases hs : s = ""
            · subst hs; simp [truthyString]
            · simp [truthyString, hs]

/-- Witness for C9: a concrete non-ok response with no detail field throws
`HTTP 404`. -/
theorem getRecommendations_error_message_witness :
    getRecommendations ⟨false, 404, ResponseBody.valid none⟩ sampleResponse =
      Except.error (recommendationsErrorMessage ⟨false, 404, ResponseBody.valid none⟩) :=
  (getRecommendations_error_message ⟨false, 404, ResponseBody.valid none⟩
    sampleResponse rfl).1

/-- Claim C10: `healthCheck` is total over all fetch outcomes — it returns
`true` exactly when the fetch resolves with an ok status, and `false` for
every other outcome, including a rejected (network-failure) fetch. -/
theorem healthCheck_total (o : FetchOutcome) :
    (healthCheck o = true ↔ o = FetchOutcome.resolved true) ∧
    (healthCheck o = false ↔ o ≠ FetchOutcome.resolved true) ∧
    healthCheck FetchOutcome.rejected = false := by
  refine ⟨?_, ?_, rfl⟩ <;>
    cases o with
    | resolved ok => cases ok <;> simp [healthCheck]
    | rejected => simp [healthCheck]

/-- Claim C7: when the candidate pool is empty after filtering, the pipeline
still returns a structured result with `top3` and `ranked_shortlist` both
empty, and the Home page renders the no-results notice, not the error
state. -/
theorem empty_pool_structured_no_results (spec : DecisionSpec)
    (listings : List NormalizedListing) (sources errors : List String)
    (h : filterListings spec listings = []) :
    (runEngine spec listings sources errors).top3 = [] ∧
    (runEngine spec listings sources errors).ranked_shortlist = [] ∧
    homeStateAfterSubmit (Except.ok (runEngine spec listings sources errors)) =
      (some (runEngine spec listings sources errors), none) ∧
    homeResultsPanel false (some (runEngine spec listings sources errors)) none =
      ResultsPanel.noResults := by
  have ht : (runEngine spec listings sources errors).top3 = [] := by
    show recommendTop3 spec (filterListings spec listings) = []
    rw [h]
    rfl
  have hrk : (runEngine spec listings sources errors).ranked_shortlist = [] := by
    show rankedShortlist (scoreCandidates spec (filterListings spec listings)) = []
    rw [h]
    rfl
  refine ⟨ht, hrk, rfl, ?_⟩
  simp [homeResultsPanel, ht]

/-- Witness for C7: a single over-budget listing filters to an empty pool,
the engine returns empty `top3`, and the page shows the no-results notice. -/
theorem empty_pool_structured_no_results_witness :
    filterListings sampleSpec [overBudgetListing] = [] ∧
    (runEngine sampleSpec [overBudgetListing] [] []).top3 = [] ∧
    homeResultsPanel false (some (runEngine sampleSpec [overBudgetListing] [] [])) none =
      ResultsPanel.noResults := by
  have h : filterListings sampleSpec [overBudgetListing] = [] := by
    norm_num [filterListings, listingPasses, overBudgetListing, listingA, sampleSpec]
  have hall := empty_pool_structured_no_results sampleSpec [overBudgetListing] [] [] h
  exact ⟨h, hall.1, hall.2.2.2⟩

/-! ### Pool statistics and component-score bounds (toward claim C3) -/

theorem foldr_min_le_init (xs : List ℚ) (a : ℚ) : xs.foldr min a ≤ a := by
  induction xs with
  | nil => exact le_refl a
  | cons x xs ih => exact le_trans (min_le_right x _) ih

theorem foldr_min_le_mem {y : ℚ} {xs : List ℚ} (h : y ∈ xs) (a : ℚ) :
    xs.foldr min a ≤ y := by
  induction xs with
  | nil => cases h
  | cons x xs ih =>
      rcases List.mem_cons.mp h with rfl | h'
      · exact min_le_left _ _
      · exact le_trans (min_le_right _ _) (ih h')

theorem poolMin_le_of_mem {y : ℚ} {l : List ℚ} (h : y ∈ l) : poolMin l ≤ y := by
  cases l with
  | nil => cases h
  | cons x xs =>
      rcases List.mem_cons.mp h with rfl | h'
      · exact foldr_min_le_init xs y
      · exact foldr_min_le_mem h' x

theorem init_le_foldr_max (xs : List ℚ) (a : ℚ) : a ≤ xs.foldr max a := by
  induction xs with
  | nil => exact le_refl a
  | cons x xs ih => exact le_trans ih (le_max_right x _)

theorem mem_le_foldr_max {y : ℚ} {xs : List ℚ} (h : y ∈ xs) (a : ℚ) :
    y ≤ xs.foldr max a := by
  induction xs with
  | nil => cases h
  | cons x xs ih =>
      rcases List.mem_cons.mp h with rfl | h'
      · exact le_max_left _ _
      · exact le_trans (ih h') (le_max_right _ _)

theorem le_poolMax_of_mem {y : ℚ} {l : List ℚ} (h : y ∈ l) : y ≤ poolMax l := by
  cases l with
  | nil => cases h
  | cons x xs =>
      rcases List.mem_cons.mp h with rfl | h'
      · exact init_le_foldr_max xs y
      · exact mem_le_foldr_max h' x

theorem inverseNormalize_unit {pool : List ℚ} {x : ℚ} (h : x ∈ pool) :
    0 ≤ inverseNormalize pool x ∧ inverseNormalize pool x ≤ 1 := by
  unfold inverseNormalize
  have h1 : poolMin pool ≤ x := poolMin_le_of_mem h
  have h2 : x ≤ poolMax pool := le_poolMax_of_mem h
  by_cases hd : poolMax pool = poolMin pool
  · rw [if_pos hd]; norm_num
  · rw [if_neg hd]
    have hlt : poolMin pool < poolMax pool := lt_of_le_of_ne (h1.trans h2) (Ne.symm hd)
    constructor
    · exact div_nonneg (by linarith) (by linarith)
    · rw [div_le_one (by linarith)]; linarith

theorem priceScore_unit {pool : List NormalizedListing} {l : NormalizedListing}
    (h : l ∈ pool) : 0 ≤ priceScore pool l ∧ priceScore pool l ≤ 1 :=
  inverseNormalize_unit (List.mem_map_of_mem _ h)

theorem deliveryScore_unit {pool : List NormalizedListing} {l : NormalizedListing}
    (h : l ∈ pool) : 0 ≤ deliveryScore pool l ∧ deliveryScore pool l ≤ 1 :=
  inverseNormalize_unit (List.mem_map_of_mem _ h)

theorem reliabilityConfidence_unit (c : Option ℕ) :
    0 ≤ reliabilityConfidence c ∧ reliabilityConfidence c ≤ 1 := by
  unfold reliabilityConfidence
  refine ⟨le_min (by norm_num) (by positivity), min_le_left _ _⟩

theorem reliabilityScore_unit {l : NormalizedListing}
    (h : ∀ r, l.seller_rating = some r → 0 ≤ r ∧ r ≤ 100) :
    0 ≤ reliabilityScore l ∧ reliabilityScore l ≤ 1 := by
  unfold reliabilityScore
  cases hr : l.seller_rating with
  | none => norm_num
  | some r =>
      obtain ⟨h0, h100⟩ := h r hr
      obtain ⟨hc0, hc1⟩ := reliabilityConfidence_unit l.seller_feedback_count
      have ht1 : -(1/2 : ℚ) ≤ r / 100 - 1/2 := by linarith
      have ht2 : r / 100 - 1/2 ≤ (1/2 : ℚ) := by linarith
      have hu : reliabilityConfidence l.seller_feedback_count * (r / 100 - 1/2) ≤
          reliabilityConfidence l.seller_feedback_count * (1/2) :=
        mul_le_mul_of_nonneg_left ht2 hc0
      have hlo : reliabilityConfidence l.seller_feedback_count * (-(1/2)) ≤
          reliabilityConfidence l.seller_feedback_count * (r / 100 - 1/2) :=
        mul_le_mul_of_nonneg_left ht1 hc0
      constructor <;> nlinarith

theorem clamp01_unit (x : ℚ) : 0 ≤ clamp01 x ∧ clamp01 x ≤ 1 := by
  unfold clamp01
  exact ⟨le_max_left _ _, max_le (by norm_num) (min_le_left _ _)⟩

theorem warrantyScore_unit (l : NormalizedListing) :
    0 ≤ warrantyScore l ∧ warrantyScore l ≤ 1 := by
  unfold warrantyScore
  cases l.warranty_months with
  | none => norm_num
  | some m => exact clamp01_unit _

theorem specMatchScore_unit (q : String) (l : NormalizedListing) :
    0 ≤ specMatchScore q l ∧ specMatchScore q l ≤ 1 := by
  unfold specMatchScore
  by_cases h : (tokenize q).length = 0
  · rw [if_pos h]; norm_num
  · rw [if_neg h]
    have hpos : 0 < ((tokenize q).length : ℚ) :=
      Nat.cast_pos.mpr (Nat.pos_of_ne_zero h)
    have hle : ((tokenize q).filter (fun t => (listingTokens l).contains t)).length ≤
        (tokenize q).length := List.length_filter_le _ _
    constructor
    · positivity
    · rw [div_le_one hpos]
      exact_mod_cast hle

theorem weightSum_pos {w : WeightConfig}
    (hw : 0 ≤ w.price ∧ 0 ≤ w.delivery ∧ 0 ≤ w.reliability ∧ 0 ≤ w.warranty ∧
      0 ≤ w.spec_match)
    (hnz : allZeroWeights w = false) : 0 < weightSum w := by
  obtain ⟨h1, h2, h3, h4, h5⟩ := hw
  by_contra hs
  push_neg at hs
  have h0 : weightSum w = 0 := le_antisymm hs (by unfold weightSum; linarith)
  unfold weightSum at h0
  have e1 : w.price = 0 := by linarith
  have e2 : w.delivery = 0 := by linarith
  have e3 : w.reliability = 0 := by linarith
  have e4 : w.warranty = 0 := by linarith
  have e5 : w.spec_match = 0 := by linarith
  rw [show allZeroWeights w = true from by simp [allZeroWeights, e1, e2, e3, e4, e5]] at hnz
  simp at hnz

theorem normalizeWeights_sum {w : WeightConfig} (hpos : 0 < weightSum w) :
    (normalizeWeights w).price + (normalizeWeights w).delivery +
      (normalizeWeights w).reliability + (normalizeWeights w).warranty +
      (normalizeWeights w).spec_match = 1 := by
  have hne : weightSum w ≠ 0 := ne_of_gt hpos
  simp only [normalizeWeights]
  rw [div_add_div_same, div_add_div_same, div_add_div_same, div_add_div_same]
  exact div_self (by unfold weightSum at *; exact hne)

theorem weightedTotal_unit {w : WeightConfig} {s : ComponentScores}
    (hw : 0 ≤ w.price ∧ 0 ≤ w.delivery ∧ 0 ≤ w.reliability ∧ 0 ≤ w.warranty ∧
      0 ≤ w.spec_match)
    (hsum : w.price + w.delivery + w.reliability + w.warranty + w.spec_match = 1)
    (hs1 : 0 ≤ s.price ∧ s.price ≤ 1) (hs2 : 0 ≤ s.delivery ∧ s.delivery ≤ 1)
    (hs3 : 0 ≤ s.reliability ∧ s.reliability ≤ 1)
    (hs4 : 0 ≤ s.warranty ∧ s.warranty ≤ 1)
    (hs5 : 0 ≤ s.spec_match ∧ s.spec_match ≤ 1) :
    0 ≤ weightedTotal w s ∧ weightedTotal w s ≤ 1 := by
  obtain ⟨hw1, hw2, hw3, hw4, hw5⟩ := hw
  unfold weightedTotal
  constructor
  · have n1 := mul_nonneg hw1 hs1.1
    have n2 := mul_nonneg hw2 hs2.1
    have n3 := mul_nonneg hw3 hs3.1
    have n4 := mul_nonneg hw4 hs4.1
    have n5 := mul_nonneg hw5 hs5.1
    linarith
  · have t1 := mul_le_of_le_one_right hw1 hs1.2
    have t2 := mul_le_of_le_one_right hw2 hs2.2
    have t3 := mul_le_of_le_one_right hw3 hs3.2
    have t4 := mul_le_of_le_one_right hw4 hs4.2
    have t5 := mul_le_of_le_one_right hw5 hs5.2
    linarith

/-- Pools whose known seller ratings are genuine percentages (between 0 and
100), the data-model reading of the `seller_rating` field. -/
def RatingsBounded (pool : List NormalizedListing) : Prop :=
  ∀ l ∈ pool, ∀ r, l.seller_rating = some r → 0 ≤ r ∧ r ≤ 100

/-- Claim C3: for a valid spec (non-negative, non-all-zero weights) over a
pool whose seller ratings are percentages, every scored candidate's
`total_score` lies in the closed unit interval and equals the weighted sum of
its five component scores under the normalized weight vector. -/
theorem total_score_unit_interval (spec : DecisionSpec) (pool : List NormalizedListing)
    (hw : 0 ≤ spec.weights.price ∧ 0 ≤ spec.weights.delivery ∧
      0 ≤ spec.weights.reliability ∧ 0 ≤ spec.weights.warranty ∧
      0 ≤ spec.weights.spec_match)
    (hnz : allZeroWeights spec.weights = false)
    (hrb : RatingsBounded pool) :
    ∀ sl ∈ scoreCandidates spec pool,
      (0 ≤ sl.total_score ∧ sl.total_score ≤ 1) ∧
      sl.total_score = weightedTotal (normalizeWeights spec.weights) sl.scores := by
  intro sl hsl
  unfold scoreCandidates scoreCandidatesWith at hsl
  rw [List.mem_map] at hsl
  obtain ⟨l, hl, rfl⟩ := hsl
  refine ⟨?_, rfl⟩
  have hpos := weightSum_pos hw hnz
  have hnw : 0 ≤ (normalizeWeights spec.weights).price ∧
      0 ≤ (normalizeWeights spec.weights).delivery ∧
      0 ≤ (normalizeWeights spec.weights).reliability ∧
      0 ≤ (normalizeWeights spec.weights).warranty ∧
      0 ≤ (normalizeWeights spec.weights).spec_match :=
    ⟨div_nonneg hw.1 hpos.le, div_nonneg hw.2.1 hpos.le, div_nonneg hw.2.2.1 hpos.le,
      div_nonneg hw.2.2.2.1 hpos.le, div_nonneg hw.2.2.2.2 hpos.le⟩
  exact weightedTotal_unit hnw (normalizeWeights_sum hpos)
    (priceScore_unit hl) (deliveryScore_unit hl)
    (reliabilityScore_unit (hrb l hl)) (warrantyScore_unit l)
    (specMatchScore_unit spec.query l)

/-- Witness for C3: the sample spec and two-listing pool satisfy the
hypotheses, and the first candidate's total score lies in the unit
interval. -/
theorem total_score_unit_interval_witness :
    allZeroWeights sampleSpec.weights = false ∧
    0 ≤ weightedTotal (normalizeWeights sampleSpec.weights)
        (componentScores sampleSpec samplePool listingA) ∧
    weightedTotal (normalizeWeights sampleSpec.weights)
        (componentScores sampleSpec samplePool listingA) ≤ 1 := by
  have hnz : allZeroWeights sampleSpec.weights = false := by
    simp [allZeroWeights, sampleSpec, DEFAULT_WEIGHTS]
  have hw : 0 ≤ sampleSpec.weights.price ∧ 0 ≤ sampleSpec.weights.delivery ∧
      0 ≤ sampleSpec.weights.reliability ∧ 0 ≤ sampleSpec.weights.warranty ∧
      0 ≤ sampleSpec.weights.spec_match := by
    norm_num [sampleSpec, DEFAULT_WEIGHTS]
  have hrb : RatingsBounded samplePool := by
    intro l hl r hrat
    rcases List.mem_cons.mp hl with rfl | hl'
    · rw [show listingA.seller_rating = some 98 from rfl] at hrat
      cases hrat
      norm_num
    · rcases List.mem_cons.mp hl' with rfl | hl''
      · rw [show listingB.seller_rating = some 95 from rfl] at hrat
        cases hrat
        norm_num
      · cases hl''
  have hmem : (⟨listingA, componentScores sampleSpec samplePool listingA,
      weightedTotal (normalizeWeights sampleSpec.weights)
        (componentScores sampleSpec samplePool listingA)⟩ : ScoredListing) ∈
      scoreCandidates sampleSpec samplePool :=
    List.mem_map_of_mem _ (List.mem_cons_self _ _)
  have h := (total_score_unit_interval sampleSpec samplePool hw hnz hrb _ hmem).1
  exact ⟨hnz, h.1, h.2⟩

/-! ### Sensitivity machinery (toward claim C6) -/

theorem overallWinner_eq_none_iff (spec : DecisionSpec) (w : WeightConfig)
    (listings : List NormalizedListing) :
    overallWinner spec w listings = none ↔ filterListings spec listings = [] := by
  unfold overallWinner
  rw [Option.map_eq_none', List.head?_eq_none_iff]
  constructor
  · intro h
    have hperm := List.perm_insertionSort rankLE
      (scoreCandidatesWith w spec (filterListings spec listings))
    rw [show List.insertionSort rankLE
        (scoreCandidatesWith w spec (filterListings spec listings)) = [] from h] at hperm
    have hempty : scoreCandidatesWith w spec (filterListings spec listings) = [] :=
      hperm.symm.eq_nil
    unfold scoreCandidatesWith at hempty
    exact List.map_eq_nil_iff.mp hempty
  · intro h
    rw [show rankedShortlist (scoreCandidatesWith w spec (filterListings spec listings)) =
        rankedShortlist (scoreCandidatesWith w spec []) from by rw [h]]
    rfl

theorem sweepWinner_eq_none_iff (spec : DecisionSpec) (listings : List NormalizedListing)
    (d : Dimension) (f : ℚ) :
    sweepWinner spec listings d f = none ↔ baseWinner spec listings = none := by
  unfold sweepWinner baseWinner
  rw [overallWinner_eq_none_iff, overallWinner_eq_none_iff]

theorem switchEntry_eq_none_iff (spec : DecisionSpec) (listings : List NormalizedListing)
    (d : Dimension) (f : ℚ) :
    switchEntry spec listings d f = none ↔
      sweepWinner spec listings d f = baseWinner spec listings := by
  cases hs : sweepWinner spec listings d f with
  | none =>
      constructor
      · intro _
        exact ((sweepWinner_eq_none_iff spec listings d f).mp hs).symm
      · intro _
        unfold switchEntry
        rw [hs]
  | some wid =>
      have hred : switchEntry spec listings d f =
          (if baseWinner spec listings = some wid then none
           else some
            { type := "weight_sweep", dimension := dimensionName d, factor := f,
              new_winner_id := wid,
              message := "changing the " ++ dimensionName d ++ " weight flips the winner" }) := by
        unfold switchEntry
        rw [hs]
      rw [hred]
      by_cases hb : baseWinner spec listings = some wid
      · rw [if_pos hb]
        exact ⟨fun _ => hb.symm, fun _ => rfl⟩
      · rw [if_neg hb]
        exact ⟨fun hx => Option.noConfusion hx, fun hx => absurd hx.symm hb⟩

theorem switchEntry_factor {spec : DecisionSpec} {listings : List NormalizedListing}
    {d : Dimension} {f : ℚ} {e : WeightSwitchCondition}
    (h : switchEntry spec listings d f = some e) : e.factor = f := by
  cases hs : sweepWinner spec listings d f with
  | none =>
      exfalso
      have hn : switchEntry spec listings d f = none := by
        unfold switchEntry
        rw [hs]
      rw [hn] at h
      exact Option.noConfusion h
  | some wid =>
      have hred : switchEntry spec listings d f =
          (if baseWinner spec listings = some wid then none
           else some
            { type := "weight_sweep", dimension := dimensionName d, factor := f,
              new_winner_id := wid,
              message := "changing the " ++ dimensionName d ++ " weight flips the winner" }) := by
        unfold switchEntry
        rw [hs]
      rw [hred] at h
      by_cases hb : baseWinner spec listings = some wid
      · rw [if_pos hb] at h
        exact Option.noConfusion h
      · rw [if_neg hb] at h
        cases h
        rfl

theorem switchConditions_eq_nil_iff (spec : DecisionSpec)
    (listings : List NormalizedListing) :
    switchConditions spec listings = [] ↔
      ∀ d ∈ allDimensions, ∀ f ∈ SWEEP_FACTORS,
        sweepWinner spec listings d f = baseWinner spec listings := by
  unfold switchConditions
  rw [List.flatMap_eq_nil_iff]
  constructor
  · intro h d hd f hf
    have hfm := h d hd
    rw [List.filterMap_eq_nil_iff] at hfm
    exact (switchEntry_eq_none_iff spec listings d f).mp (hfm f hf)
  · intro h d hd
    rw [List.filterMap_eq_nil_iff]
    intro f hf
    exact (switchEntry_eq_none_iff spec listings d f).mpr (h d hd f hf)

theorem switchConditions_any_small_iff (spec : DecisionSpec)
    (listings : List NormalizedListing) :
    ((switchConditions spec listings).any
        (fun e => SMALL_FACTORS.contains e.factor)) = true ↔
      ∃ d ∈ allDimensions, ∃ f ∈ SMALL_FACTORS,
        sweepWinner spec listings d f ≠ baseWinner spec listings := by
  rw [List.any_eq_true]
  constructor
  · rintro ⟨e, he, hsf⟩
    unfold switchConditions at he
    rw [List.mem_flatMap] at he
    obtain ⟨d, hd, he2⟩ := he
    rw [List.mem_filterMap] at he2
    obtain ⟨f, _, hentry⟩ := he2
    have hfac : e.factor = f := switchEntry_factor hentry
    refine ⟨d, hd, f, ?_, ?_⟩
    · rw [← hfac]
      exact List.elem_iff.mp hsf
    · intro hEq
      rw [← switchEntry_eq_none_iff spec listings d f] at hEq
      rw [hentry] at hEq
      cases hEq
  · rintro ⟨d, hd, f, hf, hne⟩
    have hnn : switchEntry spec listings d f ≠ none := fun h =>
      hne ((switchEntry_eq_none_iff spec listings d f).mp h)
    obtain ⟨e, he⟩ := Option.ne_none_iff_exists'.mp hnn
    refine ⟨e, ?_, ?_⟩
    · unfold switchConditions
      rw [List.mem_flatMap]
      refine ⟨d, hd, List.mem_filterMap.mpr ⟨f, ?_, he⟩⟩
      exact List.mem_append_left _ hf
    · rw [switchEntry_factor he]
      exact List.elem_iff.mpr hf

theorem listingPasses_relax {spec : DecisionSpec} {l : NormalizedListing} {inc : ℚ}
    (hinc : 0 ≤ inc) (h : listingPasses spec l = true) :
    listingPasses (relaxBudget spec inc) l = true := by
  unfold listingPasses at h ⊢
  rw [Bool.and_eq_true] at h ⊢
  refine ⟨?_, h.2⟩
  have hb := of_decide_eq_true h.1
  exact decide_eq_true (show l.total_cost ≤ (relaxBudget spec inc).budget_max by
    show l.total_cost ≤ spec.budget_max + inc
    linarith)

theorem relaxWinner_ne_none {spec : DecisionSpec} {listings : List NormalizedListing}
    {inc : ℚ} (hinc : 0 ≤ inc) (h : baseWinner spec listings ≠ none) :
    relaxWinner spec listings inc ≠ none := by
  unfold baseWinner at h
  unfold relaxWinner
  intro hc
  apply h
  rw [overallWinner_eq_none_iff] at hc ⊢
  by_contra hne
  obtain ⟨l, hl⟩ := List.exists_mem_of_ne_nil _ hne
  have hmem := List.mem_filter.mp hl
  have hrel : l ∈ filterListings (relaxBudget spec inc) listings :=
    List.mem_filter.mpr ⟨hmem.1, listingPasses_relax hinc hmem.2⟩
  rw [hc] at hrel
  cases hrel

theorem budget_increment_nonneg {inc : ℚ} (h : inc ∈ BUDGET_INCREMENTS) : 0 ≤ inc := by
  rcases List.mem_cons.mp h with rfl | h'
  · norm_num
  · rcases List.mem_cons.mp h' with rfl | h''
    · norm_num
    · cases h''

theorem budgetRelaxations_all_none_iff (spec : DecisionSpec)
    (listings : List NormalizedListing) :
    ((budgetRelaxations spec listings).all (fun e => e.new_winner_id.isNone)) = true ↔
      ∀ inc ∈ BUDGET_INCREMENTS,
        relaxWinner spec listings inc = baseWinner spec listings := by
  rw [List.all_eq_true]
  unfold budgetRelaxations
  constructor
  · intro h inc hinc
    have he := h _ (List.mem_map_of_mem _ hinc)
    by_cases hc : relaxWinner spec listings inc = baseWinner spec listings
    · exact hc
    · exfalso
      rw [if_neg hc] at he
      have hnone : relaxWinner spec listings inc = none :=
        Option.isNone_iff_eq_none.mp he
      cases hb : baseWinner spec listings with
      | none => exact hc (by rw [hnone, hb])
      | some wid =>
          exact relaxWinner_ne_none (budget_increment_nonneg hinc)
            (fun hx => by rw [hb] at hx; cases hx) hnone
  · intro h e he
    rw [List.mem_map] at he
    obtain ⟨inc, hinc, rfl⟩ := he
    rw [if_pos (h inc hinc)]
    rfl

/-- Claim C6: the stability verdict is `high` iff no weight-sweep
perturbation and no budget relaxation changes the overall winner, `low` iff a
smallest-tier weight perturbation already changes the winner, and `medium` in
exactly the remaining cases; moreover a `high` verdict implies an empty
`switch_conditions` list and an unchanged winner in every `budget_relaxation`
entry. -/
theorem stability_verdict_characterization (spec : DecisionSpec)
    (listings : List NormalizedListing) :
    ((analyze spec listings).stability = Stability.high ↔
      ((∀ d ∈ allDimensions, ∀ f ∈ SWEEP_FACTORS,
          sweepWinner spec listings d f = baseWinner spec listings) ∧
        (∀ inc ∈ BUDGET_INCREMENTS,
          relaxWinner spec listings inc = baseWinner spec listings))) ∧
    ((analyze spec listings).stability = Stability.low ↔
      (∃ d ∈ allDimensions, ∃ f ∈ SMALL_FACTORS,
        sweepWinner spec listings d f ≠ baseWinner spec listings)) ∧
    ((analyze spec listings).stability = Stability.medium ↔
      (¬(∃ d ∈ allDimensions, ∃ f ∈ SMALL_FACTORS,
          sweepWinner spec listings d f ≠ baseWinner spec listings) ∧
        ((∃ d ∈ allDimensions, ∃ f ∈ SWEEP_FACTORS,
            sweepWinner spec listings d f ≠ baseWinner spec listings) ∨
          (∃ inc ∈ BUDGET_INCREMENTS,
            relaxWinner spec listings inc ≠ baseWinner spec listings)))) ∧
    ((analyze spec listings).stability = Stability.high →
      (analyze spec listings).switch_conditions = [] ∧
      ∀ e ∈ (analyze spec listings).budget_relaxation, e.new_winner_id = none) := by
  have hA := switchConditions_eq_nil_iff spec listings
  have hB := budgetRelaxations_all_none_iff spec listings
  have hS := switchConditions_any_small_iff spec listings
  have hstab : (analyze spec listings).stability = stabilityVerdict spec listings := rfl
  have hsw : (analyze spec listings).switch_conditions = switchConditions spec listings := rfl
  have hbr : (analyze spec listings).budget_relaxation = budgetRelaxations spec listings := rfl
  by_cases h1 : ((switchConditions spec listings).isEmpty &&
      (budgetRelaxations spec listings).all (fun e => e.new_winner_id.isNone)) = true
  · have hv : stabilityVerdict spec listings = Stability.high := by
      unfold stabilityVerdict
      rw [if_pos h1]
    rw [Bool.and_eq_true] at h1
    have hnil : switchConditions spec listings = [] := List.isEmpty_iff.mp h1.1
    have hAeq := hA.mp hnil
    have hBeq := hB.mp h1.2
    refine ⟨?_, ?_, ?_, ?_⟩
    · rw [hstab, hv]
      exact iff_of_true rfl ⟨hAeq, hBeq⟩
    · rw [hstab, hv]
      apply iff_of_false (by decide)
      rintro ⟨d, hd, f, hf, hne⟩
      exact hne (hAeq d hd f (List.mem_append_left _ hf))
    · rw [hstab, hv]
      apply iff_of_false (by decide)
      rintro ⟨-, hchange⟩
      rcases hchange with ⟨d, hd, f, hf, hne⟩ | ⟨inc, hinc, hne⟩
      · exact hne (hAeq d hd f hf)
      · exact hne (hBeq inc hinc)
    · intro _
      refine ⟨by rw [hsw]; exact hnil, ?_⟩
      intro e he
      rw [hbr] at he
      exact Option.isNone_iff_eq_none.mp (List.all_eq_true.mp h1.2 e he)
  · by_cases h2 : ((switchConditions spec listings).any
        (fun e => SMALL_FACTORS.contains e.factor)) = true
    · have hv : stabilityVerdict spec listings = Stability.low := by
        unfold stabilityVerdict
        rw [if_neg h1, if_pos h2]
      have hsmall := hS.mp h2
      refine ⟨?_, ?_, ?_, ?_⟩
      · rw [hstab, hv]
        apply iff_of_false (by decide)
        rintro ⟨hAeq, hBeq⟩
        exact h1 ((Bool.and_eq_true _ _).mpr
          ⟨List.isEmpty_iff.mpr (hA.mpr hAeq), hB.mpr hBeq⟩)
      · rw [hstab, hv]
        exact iff_of_true rfl hsmall
      · rw [hstab, hv]
        apply iff_of_false (by decide)
        rintro ⟨hns, -⟩
        exact hns hsmall
      · intro hx
        rw [hstab, hv] at hx
        exact Stability.noConfusion hx
    · have hv : stabilityVerdict spec listings = Stability.medium := by
        unfold stabilityVerdict
        rw [if_neg h1, if_neg h2]
      have hnsmall : ¬(∃ d ∈ allDimensions, ∃ f ∈ SMALL_FACTORS,
          sweepWinner spec listings d f ≠ baseWinner spec listings) := fun hx =>
        h2 (hS.mpr hx)
      have hdisj : (∃ d ∈ allDimensions, ∃ f ∈ SWEEP_FACTORS,
            sweepWinner spec listings d f ≠ baseWinner spec listings) ∨
          (∃ inc ∈ BUDGET_INCREMENTS,
            relaxWinner spec listings inc ≠ baseWinner spec listings) := by
        by_contra hno
        push_neg at hno
        exact h1 ((Bool.and_eq_true _ _).mpr
          ⟨List.isEmpty_iff.mpr (hA.mpr hno.1), hB.mpr hno.2⟩)
      refine ⟨?_, ?_, ?_, ?_⟩
      · rw [hstab, hv]
        apply iff_of_false (by decide)
        rintro ⟨hAeq, hBeq⟩
        exact h1 ((Bool.and_eq_true _ _).mpr
          ⟨List.isEmpty_iff.mpr (hA.mpr hAeq), hB.mpr hBeq⟩)
      · rw [hstab, hv]
        apply iff_of_false (by decide)
        exact fun hx => h2 (hS.mpr hx)
      · rw [hstab, hv]
        exact iff_of_true rfl ⟨hnsmall, hdisj⟩
      · intro hx
        rw [hstab, hv] at hx
        exact Stability.noConfusion hx

end Sourceror
